import Mathlib

/-!
Shallow embedding of the caterine CMS backend (TypeScript) for verification:
the pagination helper (`src/utils/helpers.ts`), the `AdminService` site-settings
operations and `ImageService` (`src/services/adminService.ts`,
`src/services/imageService.ts`), and the single-active-record invariant enforced
by the `SiteSettings` schema pre-save hook (`src/models/SiteSettings.ts`).

JavaScript dynamic values are modelled by `JSValue`; documents are association
lists of string keys; the Mongo collection is a list of records; external
effects (Cloudinary destroy/upload) are oracles passed as parameters.
-/

namespace Caterine

/-- A JavaScript runtime value, as dispatched on by the service code via
`typeof`, `Array.isArray`, `!== undefined`, `!== null` and truthiness. -/
inductive JSValue where
  | undefined
  | null
  | str (s : String)
  | num (n : Int)
  | bool (b : Bool)
  | arr (elems : List JSValue)
  | obj (fields : List (String × JSValue))
deriving Repr

mutual

/-- Decidable equality for `JSValue` (hand-written: nested inductive). -/
def decEqVal : (a b : JSValue) → Decidable (a = b)
  | .undefined, .undefined => isTrue rfl
  | .undefined, .null => isFalse (fun h => JSValue.noConfusion h)
  | .undefined, .str _ => isFalse (fun h => JSValue.noConfusion h)
  | .undefined, .num _ => isFalse (fun h => JSValue.noConfusion h)
  | .undefined, .bool _ => isFalse (fun h => JSValue.noConfusion h)
  | .undefined, .arr _ => isFalse (fun h => JSValue.noConfusion h)
  | .undefined, .obj _ => isFalse (fun h => JSValue.noConfusion h)
  | .null, .undefined => isFalse (fun h => JSValue.noConfusion h)
  | .null, .null => isTrue rfl
  | .null, .str _ => isFalse (fun h => JSValue.noConfusion h)
  | .null, .num _ => isFalse (fun h => JSValue.noConfusion h)
  | .null, .bool _ => isFalse (fun h => JSValue.noConfusion h)
  | .null, .arr _ => isFalse (fun h => JSValue.noConfusion h)
  | .null, .obj _ => isFalse (fun h => JSValue.noConfusion h)
  | .str _, .undefined => isFalse (fun h => JSValue.noConfusion h)
  | .str _, .null => isFalse (fun h => JSValue.noConfusion h)
  | .str a, .str b =>
    if h : a = b then isTrue (by rw [h]) else
      isFalse (fun hh => h (JSValue.str.inj hh))
  | .str _, .num _ => isFalse (fun h => JSValue.noConfusion h)
  | .str _, .bool _ => isFalse (fun h => JSValue.noConfusion h)
  | .str _, .arr _ => isFalse (fun h => JSValue.noConfusion h)
  | .str _, .obj _ => isFalse (fun h => JSValue.noConfusion h)
  | .num _, .undefined => isFalse (fun h => JSValue.noConfusion h)
  | .num _, .null => isFalse (fun h => JSValue.noConfusion h)
  | .num _, .str _ => isFalse (fun h => JSValue.noConfusion h)
  | .num a, .num b =>
    if h : a = b then isTrue (by rw [h]) else
      isFalse (fun hh => h (JSValue.num.inj hh))
  | .num _, .bool _ => isFalse (fun h => JSValue.noConfusion h)
  | .num _, .arr _ => isFalse (fun h => JSValue.noConfusion h)
  | .num _, .obj _ => isFalse (fun h => JSValue.noConfusion h)
  | .bool _, .undefined => isFalse (fun h => JSValue.noConfusion h)
  | .bool _, .null => isFalse (fun h => JSValue.noConfusion h)
  | .bool _, .str _ => isFalse (fun h => JSValue.noConfusion h)
  | .bool _, .num _ => isFalse (fun h => JSValue.noConfusion h)
  | .bool a, .bool b =>
    if h : a = b then isTrue (by rw [h]) else
      isFalse (fun hh => h (JSValue.bool.inj hh))
  | .bool _, .arr _ => isFalse (fun h => JSValue.noConfusion h)
  | .bool _, .obj _ => isFalse (fun h => JSValue.noConfusion h)
  | .arr _, .undefined => isFalse (fun h => JSValue.noConfusion h)
  | .arr _, .null => isFalse (fun h => JSValue.noConfusion h)
  | .arr _, .str _ => isFalse (fun h => JSValue.noConfusion h)
  | .arr _, .num _ => isFalse (fun h => JSValue.noConfusion h)
  | .arr _, .bool _ => isFalse (fun h => JSValue.noConfusion h)
  | .arr a, .arr b =>
    match decEqValList a b with
    | isTrue h => isTrue (by rw [h])
    | isFalse h => isFalse (fun hh => h (JSValue.arr.inj hh))
  | .arr _, .obj _ => isFalse (fun h => JSValue.noConfusion h)
  | .obj _, .undefined => isFalse (fun h => JSValue.noConfusion h)
  | .obj _, .null => isFalse (fun h => JSValue.noConfusion h)
  | .obj _, .str _ => isFalse (fun h => JSValue.noConfusion h)
  | .obj _, .num _ => isFalse (fun h => JSValue.noConfusion h)
  | .obj _, .bool _ => isFalse (fun h => JSValue.noConfusion h)
  | .obj _, .arr _ => isFalse (fun h => JSValue.noConfusion h)
  | .obj a, .obj b =>
    match decEqFieldList a b with
    | isTrue h => isTrue (by rw [h])
    | isFalse h => isFalse (fun hh => h (JSValue.obj.inj hh))

/-- Decidable equality for lists of `JSValue`. -/
def decEqValList : (a b : List JSValue) → Decidable (a = b)
  | [], [] => isTrue rfl
  | [], _ :: _ => isFalse (fun h => List.noConfusion h)
  | _ :: _, [] => isFalse (fun h => List.noConfusion h)
  | x :: xs, y :: ys =>
    match decEqVal x y with
    | isFalse h => isFalse (fun hh => h (List.cons.inj hh).1)
    | isTrue h1 =>
      match decEqValList xs ys with
      | isTrue h2 => isTrue (by rw [h1, h2])
      | isFalse h2 => isFalse (fun hh => h2 (List.cons.inj hh).2)

/-- Decidable equality for field lists of `JSValue` objects. -/
def decEqFieldList : (a b : List (String × JSValue)) → Decidable (a = b)
  | [], [] => isTrue rfl
  | [], _ :: _ => isFalse (fun h => List.noConfusion h)
  | _ :: _, [] => isFalse (fun h => List.noConfusion h)
  | (k1, v1) :: xs, (k2, v2) :: ys =>
    if hk : k1 = k2 then
      match decEqVal v1 v2 with
      | isFalse h =>
        isFalse (fun hh => h (congrArg Prod.snd (List.cons.inj hh).1))
      | isTrue h1 =>
        match decEqFieldList xs ys with
        | isTrue h2 => isTrue (by rw [hk, h1, h2])
        | isFalse h2 => isFalse (fun hh => h2 (List.cons.inj hh).2)
    else
      isFalse (fun hh => hk (congrArg Prod.fst (List.cons.inj hh).1))

end

instance : DecidableEq JSValue := decEqVal

namespace JSValue

/-- JS test `typeof v === 'object'` (true for null, arrays and plain objects). -/
def isObjectType : JSValue → Bool
  | .null => true
  | .arr _ => true
  | .obj _ => true
  | _ => false

/-- JS test `v === null`. -/
def isNull : JSValue → Bool
  | .null => true
  | _ => false

/-- JS test `v === undefined`. -/
def isUndefined : JSValue → Bool
  | .undefined => true
  | _ => false

/-- JS test `Array.isArray(v)`. -/
def isArray : JSValue → Bool
  | .arr _ => true
  | _ => false

/-- JavaScript truthiness of a value. -/
def truthy : JSValue → Bool
  | .undefined => false
  | .null => false
  | .str s => !(s == "")
  | .num n => !(n == 0)
  | .bool b => b
  | .arr _ => true
  | .obj _ => true

end JSValue

/-- Property read `o[k]` on an object's field list: `undefined` when absent. -/
def getKey (fields : List (String × JSValue)) (k : String) : JSValue :=
  match fields.find? (fun p => p.1 == k) with
  | some p => p.2
  | none => .undefined

/-- Property write `o[k] = v` on an object's field list: overwrite in place if the key
exists, otherwise append (JS object insertion-order semantics; object keys
are unique, so replacing the first occurrence is exact). -/
def setEntry : List (String × JSValue) → String → JSValue →
    List (String × JSValue)
  | [], k, v => [(k, v)]
  | (k1, v1) :: rest, k, v =>
    if k1 == k then (k, v) :: rest else (k1, v1) :: setEntry rest k v

/-- Whether the object's field list has key `k` (`k in o`). -/
def hasKey (fields : List (String × JSValue)) (k : String) : Bool :=
  fields.any (fun p => p.1 == k)

/-- The own enumerable entries of a value, as used by object spread:
objects give their fields, arrays give index-keyed entries. -/
def entries : JSValue → List (String × JSValue)
  | .obj fields => fields
  | .arr elems => elems.enum.map (fun p => (toString p.1, p.2))
  | _ => []

/-- Object spread `{...base, ...upd}`: entries of `upd` overwrite those of
`base`, keys of `base` absent from `upd` are preserved. -/
def mergeEntries (base upd : List (String × JSValue)) :
    List (String × JSValue) :=
  upd.foldl (fun acc p => setEntry acc p.1 p.2) base

/-- Optional chaining `v?.k`: property read that yields `undefined`
instead of throwing when `v` is not an object. -/
def optChainGet (v : JSValue) (k : String) : JSValue :=
  match v with
  | .obj fields => getKey fields k
  | _ => .undefined

/-- Index read `v[i]` for the array/object values stored in
`menuChildWithImage` (`undefined` when out of range or not indexable). -/
def indexGet : JSValue → Nat → JSValue
  | .arr elems, i => (elems.get? i).getD .undefined
  | .obj fields, i => getKey fields (toString i)
  | _, _ => .undefined

/-- Index write `v[i] = x` (no-op on non-indexable values). -/
def setIndex : JSValue → Nat → JSValue → JSValue
  | .arr elems, i, x => .arr (elems.set i x)
  | .obj fields, i, x => .obj (setEntry fields (toString i) x)
  | v, _, _ => v

/-- Splice `v.splice(i, 1)` on an array value (no-op otherwise). -/
def spliceOne : JSValue → Nat → JSValue
  | .arr elems, i => .arr (elems.eraseIdx i)
  | v, _ => v

/-! ## Pagination metadata (`getPaginationMeta`, src/utils/helpers.ts) -/

/-- The record returned by `getPaginationMeta`. -/
structure PaginationMeta where
  total : Nat
  page : Nat
  limit : Nat
  totalPages : Nat
  hasNextPage : Bool
  hasPrevPage : Bool
deriving Repr, DecidableEq

/-- Function `getPaginationMeta(total, page, limit)` from src/utils/helpers.ts:
`totalPages = Math.ceil(total / limit)` (for `limit ≥ 1` this is
`(total + limit - 1) / limit` in natural division),
`hasNextPage = page < totalPages`, `hasPrevPage = page > 1`. -/
def getPaginationMeta (total page limit : Nat) : PaginationMeta :=
  { total := total
    page := page
    limit := limit
    totalPages := (total + limit - 1) / limit
    hasNextPage := decide (page < (total + limit - 1) / limit)
    hasPrevPage := decide (page > 1) }

/-! ## Errors and the settings collection -/

/-- Error type `AppError` from src/utils/appError.ts: a message and an HTTP status code. -/
structure AppError where
  message : String
  statusCode : Nat
deriving Repr, DecidableEq

/-- Object field lists (documents' dynamic content). -/
abbrev JSEntries := List (String × JSValue)

/-- One `SiteSettings` document. `isActive` and `updatedBy` are the schema's
dedicated columns; all content fields (backgroundImage, heroSectionText,
menuChildWithImage, ...) live in the dynamic field list, as the service code
addresses them by string key. -/
structure SettingsRecord where
  rid : Nat
  fields : JSEntries
  isActive : Bool
  updatedBy : Nat
deriving Repr, DecidableEq

/-- The `SiteSettings` Mongo collection, in insertion order. -/
abbrev Store := List SettingsRecord

/-- Number of records with `isActive = true`. -/
def countActive (s : Store) : Nat := (s.filter (fun r => r.isActive)).length

/-- A record id not used by any record in the store. -/
def freshId (s : Store) : Nat := s.foldl (fun m r => max m (r.rid + 1)) 0

/-- Query `SiteSettings.findOne` with filter `isActive: true`: the first active record. -/
def findActive (s : Store) : Option SettingsRecord :=
  s.find? (fun r => r.isActive)

/-- Replace the first active record (the one `findOne({isActive:true})`
returned) by `f` of it; other records untouched. -/
def replaceFirstActive (f : SettingsRecord → SettingsRecord) : Store → Store
  | [] => []
  | r :: rest =>
    if r.isActive then f r :: rest else r :: replaceFirstActive f rest

/-- In-place mutation and save (`settings.updatedBy = adminId; settings.save()`) of the
current active record: apply `g` to its content fields and stamp `updatedBy`.
(`save` on an existing document does not trigger the pre-save dedup sweep,
which only fires on `isNew` documents.) -/
def mutateActiveFields (s : Store) (adminId : Nat) (g : JSEntries → JSEntries) :
    Store :=
  replaceFirstActive (fun r =>
    { r with fields := g r.fields, updatedBy := adminId }) s

/-- Creation `SiteSettings.create` of a new document: the schema
defaults `isActive` to `true`, and the pre-save hook in
src/models/SiteSettings.ts deactivates every other record
(`updateMany({_id: {$ne: this._id}}, {isActive: false})`) before the new
active document is inserted. -/
def createActive (s : Store) (fields : JSEntries) (adminId : Nat) : Store :=
  s.map (fun r => { r with isActive := false }) ++
    [{ rid := freshId s, fields := fields, isActive := true,
       updatedBy := adminId }]

/-! ## `AdminService.updateSiteSettings` -/

/-- One iteration of the `Object.keys(updateData).forEach` loop in
`AdminService.updateSiteSettings`: skip `undefined`; assign
`menuChildWithImage` arrays wholesale; shallow-spread non-null objects into an
existing non-null object value (dropping them otherwise); assign everything
else (primitives, incl. `null`) wholesale. -/
def applyUpdateKey (fields : JSEntries) (k : String) (v : JSValue) :
    JSEntries :=
  if v.isUndefined then fields
  else if k == "menuChildWithImage" && v.isArray then setEntry fields k v
  else if v.isObjectType && !v.isNull then
    let currentValue := getKey fields k
    if currentValue.isObjectType && !currentValue.isNull then
      setEntry fields k (.obj (mergeEntries (entries currentValue) (entries v)))
    else fields
  else setEntry fields k v

/-- The whole `forEach` loop over the payload's keys, in order. -/
def updateFields (fields : JSEntries) (updateData : JSEntries) : JSEntries :=
  updateData.foldl (fun acc p => applyUpdateKey acc p.1 p.2) fields

/-- Method `AdminService.updateSiteSettings(adminId, updateData)`: merge into the
active record if one exists, else `create({...updateData, updatedBy})`
(schema defaults elided; the payload type `SiteSettingsInput` carries no
`isActive` key). -/
def updateSiteSettings (adminId : Nat) (updateData : JSEntries) (s : Store) :
    Except AppError Store :=
  match findActive s with
  | some _ =>
    .ok (mutateActiveFields s adminId (fun fs => updateFields fs updateData))
  | none => .ok (createActive s updateData adminId)

/-! ## `AdminService.restoreSiteSettings` -/

/-- The content the restore copies from the target version: exactly
backgroundImage, heroSectionText, aboutSectionText, contactInfo and
socialMedia — no menu fields, no about image. -/
def restoredFields (prev : SettingsRecord) : JSEntries :=
  [("backgroundImage", getKey prev.fields "backgroundImage"),
   ("heroSectionText", getKey prev.fields "heroSectionText"),
   ("aboutSectionText", getKey prev.fields "aboutSectionText"),
   ("contactInfo", getKey prev.fields "contactInfo"),
   ("socialMedia", getKey prev.fields "socialMedia")]

/-- Method `AdminService.restoreSiteSettings(adminId, settingsId)`: 404 when the id is
unknown; otherwise `updateMany({}, {isActive: false})` then
`create({...copied, updatedBy: adminId, isActive: true})`. -/
def restoreSiteSettings (adminId targetId : Nat) (s : Store) :
    Except AppError Store :=
  match s.find? (fun r => r.rid == targetId) with
  | none => .error ⟨"Settings version not found", 404⟩
  | some previousSettings =>
    .ok ((s.map (fun r => { r with isActive := false })) ++
      [{ rid := freshId s, fields := restoredFields previousSettings,
         isActive := true, updatedBy := adminId }])

/-! ## `ImageService` and the image-field operations -/

/-- Result of a Cloudinary upload (`{ url, fileId }`). -/
structure ImageUploadResult where
  url : String
  fileId : String
deriving Repr, DecidableEq

/-- The `req.files.image` argument as `ImageService.validateImageFile` sees
it: absent, a single file, or an array of files. -/
inductive UploadArg where
  | missing
  | single
  | multiple
deriving Repr, DecidableEq

/-- Method `ImageService.validateImageFile`: 400 when no file or multiple files. -/
def validateImageFile : UploadArg → Except AppError Unit
  | .missing => .error ⟨"No file uploaded", 400⟩
  | .multiple => .error ⟨"Multiple files not allowed", 400⟩
  | .single => .ok ()

/-- External call `cloudinary.uploader.destroy(fileId)`; `destroyOk` is the
oracle for whether the Object Store delete succeeds. -/
def cloudinaryDestroy (destroyOk : Bool) : Except AppError Unit :=
  if destroyOk then .ok () else .error ⟨"Cloudinary destroy failed", 500⟩

/-- Method `ImageService.deleteImage(fileId)`: `if (!fileId) return;` then destroy,
with the whole body in `try { ... } catch { console.error(...) }` — every
failure is swallowed, so the call always resolves. -/
def deleteImage (fileId : JSValue) (destroyOk : Bool) : Except AppError Unit :=
  match (if !fileId.truthy then Except.ok () else cloudinaryDestroy destroyOk)
  with
  | .ok _ => .ok ()
  | .error _ => .ok ()

/-- The `{ url, fileId }` value written into an image field after upload. -/
def imageFieldValue (up : ImageUploadResult) : JSValue :=
  .obj [("url", .str up.url), ("fileId", .str up.fileId)]

/-- Method `AdminService.updateBackgroundImage`: validate, find active settings (404
if none), best-effort delete of the previous asset, upload (external outcome
`uploadOutcome`), then persist the new `{url, fileId}`. -/
def updateBackgroundImage (adminId : Nat) (file : UploadArg)
    (destroyOk : Bool) (uploadOutcome : Except AppError ImageUploadResult)
    (s : Store) : Except AppError Store := do
  let _ ← validateImageFile file
  match findActive s with
  | none => throw ⟨"Site settings not found", 404⟩
  | some settings =>
    let prevFileId :=
      optChainGet (getKey settings.fields "backgroundImage") "fileId"
    if prevFileId.truthy then
      let _ ← deleteImage prevFileId destroyOk
    let uploadResult ← uploadOutcome
    pure (mutateActiveFields s adminId (fun fs =>
      setEntry fs "backgroundImage" (imageFieldValue uploadResult)))

/-- Method `AdminService.removeBackgroundImage`: best-effort delete, then reset to
the default placeholder `{url: 'default-bg.jpg', fileId: null}`. -/
def removeBackgroundImage (adminId : Nat) (destroyOk : Bool) (s : Store) :
    Except AppError Store := do
  match findActive s with
  | none => throw ⟨"Site settings not found", 404⟩
  | some settings =>
    let prevFileId :=
      optChainGet (getKey settings.fields "backgroundImage") "fileId"
    if prevFileId.truthy then
      let _ ← deleteImage prevFileId destroyOk
    pure (mutateActiveFields s adminId (fun fs =>
      setEntry fs "backgroundImage"
        (.obj [("url", .str "default-bg.jpg"), ("fileId", .null)])))

/-- Method `AdminService.updateAboutSectionImage` (same shape as the background
replace, field `aboutSectionImage`). -/
def updateAboutSectionImage (adminId : Nat) (file : UploadArg)
    (destroyOk : Bool) (uploadOutcome : Except AppError ImageUploadResult)
    (s : Store) : Except AppError Store := do
  let _ ← validateImageFile file
  match findActive s with
  | none => throw ⟨"Site settings not found", 404⟩
  | some settings =>
    let prevFileId :=
      optChainGet (getKey settings.fields "aboutSectionImage") "fileId"
    if prevFileId.truthy then
      let _ ← deleteImage prevFileId destroyOk
    let uploadResult ← uploadOutcome
    pure (mutateActiveFields s adminId (fun fs =>
      setEntry fs "aboutSectionImage" (imageFieldValue uploadResult)))

/-- Method `AdminService.removeAboutSectionImage`: reset to `{url: null, fileId:
null}`. -/
def removeAboutSectionImage (adminId : Nat) (destroyOk : Bool) (s : Store) :
    Except AppError Store := do
  match findActive s with
  | none => throw ⟨"Site settings not found", 404⟩
  | some settings =>
    let prevFileId :=
      optChainGet (getKey settings.fields "aboutSectionImage") "fileId"
    if prevFileId.truthy then
      let _ ← deleteImage prevFileId destroyOk
    pure (mutateActiveFields s adminId (fun fs =>
      setEntry fs "aboutSectionImage"
        (.obj [("url", .null), ("fileId", .null)])))

/-- Method `AdminService.updateMenuMainImage` (field `menuMainImage`). -/
def updateMenuMainImage (adminId : Nat) (file : UploadArg)
    (destroyOk : Bool) (uploadOutcome : Except AppError ImageUploadResult)
    (s : Store) : Except AppError Store := do
  let _ ← validateImageFile file
  match findActive s with
  | none => throw ⟨"Site settings not found", 404⟩
  | some settings =>
    let prevFileId :=
      optChainGet (getKey settings.fields "menuMainImage") "fileId"
    if prevFileId.truthy then
      let _ ← deleteImage prevFileId destroyOk
    let uploadResult ← uploadOutcome
    pure (mutateActiveFields s adminId (fun fs =>
      setEntry fs "menuMainImage" (imageFieldValue uploadResult)))

/-- Method `AdminService.removeMenuMainImage`: reset to `{url: null, fileId:
null}`. -/
def removeMenuMainImage (adminId : Nat) (destroyOk : Bool) (s : Store) :
    Except AppError Store := do
  match findActive s with
  | none => throw ⟨"Site settings not found", 404⟩
  | some settings =>
    let prevFileId :=
      optChainGet (getKey settings.fields "menuMainImage") "fileId"
    if prevFileId.truthy then
      let _ ← deleteImage prevFileId destroyOk
    pure (mutateActiveFields s adminId (fun fs =>
      setEntry fs "menuMainImage" (.obj [("url", .null), ("fileId", .null)])))

/-! ## Menu child items (`menuChildWithImage`) -/

/-- Payload of `AdminService.addMenuChildItem`: `{title, content, price,
image?}` with `image` possibly absent (`undefined`) or `null`. -/
structure MenuItemInput where
  title : String
  content : String
  price : Int
  image : JSValue
deriving Repr, DecidableEq

/-- Payload of `AdminService.updateMenuChildItem`: all four fields optional
(`undefined` = absent). -/
structure MenuItemPatch where
  title : JSValue
  content : JSValue
  price : JSValue
  image : JSValue
deriving Repr, DecidableEq

/-- Property write `v.k = x` (silently ignored on non-objects, as in
non-strict JS). -/
def setProp (v : JSValue) (k : String) (x : JSValue) : JSValue :=
  match v with
  | .obj fields => .obj (setEntry fields k x)
  | v => v

/-- The four guarded writes of `updateMenuChildItem`
(`if (itemData.f !== undefined) item.f = itemData.f`). -/
def patchMenuItem (item : JSValue) (patch : MenuItemPatch) : JSValue :=
  let item := if patch.title.isUndefined then item else setProp item "title" patch.title
  let item := if patch.content.isUndefined then item else
    setProp item "content" patch.content
  let item := if patch.price.isUndefined then item else
    setProp item "price" patch.price
  if patch.image.isUndefined then item else setProp item "image" patch.image

/-- Method `AdminService.addMenuChildItem`: 404 without active settings; initialise
`menuChildWithImage` to `[]` when falsy; push the new item with
`image: itemData.image || {url: null, fileId: null}`. -/
def addMenuChildItem (adminId : Nat) (itemData : MenuItemInput) (s : Store) :
    Except AppError Store := do
  match findActive s with
  | none => throw ⟨"Site settings not found", 404⟩
  | some settings =>
    let menu := getKey settings.fields "menuChildWithImage"
    let menu := if menu.truthy then menu else .arr []
    match menu with
    | .arr elems =>
      let newItem : JSValue := .obj
        [("title", .str itemData.title), ("content", .str itemData.content),
         ("price", .num itemData.price),
         ("image", if itemData.image.truthy then itemData.image else
           .obj [("url", .null), ("fileId", .null)])]
      pure (mutateActiveFields s adminId (fun fs =>
        setEntry fs "menuChildWithImage" (.arr (elems ++ [newItem]))))
    | _ =>
      -- a truthy non-array value makes `menu.push` raise a TypeError in JS;
      -- unreachable for schema-conformant records
      throw ⟨"TypeError: push is not a function", 500⟩

/-- Method `AdminService.updateMenuChildItem`: 404 without active settings; 404 when
`!settings.menuChildWithImage || !settings.menuChildWithImage[itemIndex]`;
best-effort delete of the old element image when a new one is supplied; then
the four guarded field writes. -/
def updateMenuChildItem (adminId itemIndex : Nat) (itemData : MenuItemPatch)
    (destroyOk : Bool) (s : Store) : Except AppError Store := do
  match findActive s with
  | none => throw ⟨"Site settings not found", 404⟩
  | some settings =>
    let menu := getKey settings.fields "menuChildWithImage"
    let item := indexGet menu itemIndex
    if !menu.truthy || !item.truthy then
      throw ⟨"Menu item not found", 404⟩
    let oldFileId := optChainGet (optChainGet item "image") "fileId"
    if itemData.image.truthy && oldFileId.truthy then
      let _ ← deleteImage oldFileId destroyOk
    pure (mutateActiveFields s adminId (fun fs =>
      setEntry fs "menuChildWithImage"
        (setIndex menu itemIndex (patchMenuItem item itemData))))

/-- Method `AdminService.updateMenuChildImage`: validate, 404 checks as above,
best-effort delete of the old element image, upload, write `{url, fileId}`
into the element. -/
def updateMenuChildImage (adminId itemIndex : Nat) (file : UploadArg)
    (destroyOk : Bool) (uploadOutcome : Except AppError ImageUploadResult)
    (s : Store) : Except AppError Store := do
  let _ ← validateImageFile file
  match findActive s with
  | none => throw ⟨"Site settings not found", 404⟩
  | some settings =>
    let menu := getKey settings.fields "menuChildWithImage"
    let item := indexGet menu itemIndex
    if !menu.truthy || !item.truthy then
      throw ⟨"Menu item not found", 404⟩
    let oldFileId := optChainGet (optChainGet item "image") "fileId"
    if oldFileId.truthy then
      let _ ← deleteImage oldFileId destroyOk
    let uploadResult ← uploadOutcome
    pure (mutateActiveFields s adminId (fun fs =>
      setEntry fs "menuChildWithImage"
        (setIndex menu itemIndex
          (setProp item "image" (imageFieldValue uploadResult)))))

/-- Method `AdminService.removeMenuChildImage`: 404 checks, best-effort delete, reset
the element's image to `{url: null, fileId: null}`. -/
def removeMenuChildImage (adminId itemIndex : Nat) (destroyOk : Bool)
    (s : Store) : Except AppError Store := do
  match findActive s with
  | none => throw ⟨"Site settings not found", 404⟩
  | some settings =>
    let menu := getKey settings.fields "menuChildWithImage"
    let item := indexGet menu itemIndex
    if !menu.truthy || !item.truthy then
      throw ⟨"Menu item not found", 404⟩
    let oldFileId := optChainGet (optChainGet item "image") "fileId"
    if oldFileId.truthy then
      let _ ← deleteImage oldFileId destroyOk
    pure (mutateActiveFields s adminId (fun fs =>
      setEntry fs "menuChildWithImage"
        (setIndex menu itemIndex
          (setProp item "image" (.obj [("url", .null), ("fileId", .null)])))))

/-- Method `AdminService.deleteMenuChildItem`: 404 checks, best-effort delete of the
element's image, then `splice(itemIndex, 1)`. -/
def deleteMenuChildItem (adminId itemIndex : Nat) (destroyOk : Bool)
    (s : Store) : Except AppError Store := do
  match findActive s with
  | none => throw ⟨"Site settings not found", 404⟩
  | some settings =>
    let menu := getKey settings.fields "menuChildWithImage"
    let item := indexGet menu itemIndex
    if !menu.truthy || !item.truthy then
      throw ⟨"Menu item not found", 404⟩
    let oldFileId := optChainGet (optChainGet item "image") "fileId"
    if oldFileId.truthy then
      let _ ← deleteImage oldFileId destroyOk
    pure (mutateActiveFields s adminId (fun fs =>
      setEntry fs "menuChildWithImage" (spliceOne menu itemIndex)))

/-! ## Admin login (`AdminService.loginAdmin`) -/

/-- One `Admin` document, per `adminSchema` (the Admin model source at the
end of src/controllers/adminController.ts): name, unique email, select-hidden
password digest, select-hidden `active` flag (default true), optional
`lastLoginAt`. `passwordDigest` holds what the schema's pre-save hook stored:
`this.password = await bcrypt.hash(this.password, 12)`. -/
structure AdminRecord where
  aid : Nat
  name : String
  email : String
  passwordDigest : String
  active : Bool
  lastLoginAt : Option Nat
deriving Repr, DecidableEq

/-- External call `bcrypt.hash(password, 12)` of the bcryptjs library (used by
the `adminSchema.pre('save')` hook); the library itself is outside the
repository, and the spec treats hashing as the opaque primitive
`hash(password) -> digest`, so it is modelled as an injective tagging of the
password. -/
def bcryptHash (password : String) : String := "digest:" ++ password

/-- Method `adminSchema.methods.correctPassword(candidatePassword,
userPassword)` from the Admin model in src/controllers/adminController.ts:
`bcrypt.compare(candidatePassword, userPassword)`, which resolves true exactly
when the stored `userPassword` is the bcrypt digest of the candidate. -/
def correctPassword (candidatePassword userPassword : String) : Bool :=
  bcryptHash candidatePassword == userPassword

/-- Modelled from the spec: JWT issuance is the opaque primitive
`sign(claims) -> token` (`signToken` in src/utils/helpers.ts wraps
`jwt.sign({id}, secret)`); modelled as a nonempty token embedding the id. -/
def signToken (id : Nat) : String := "jwt:" ++ toString id

/-- Replace the first admin satisfying `p` by `f` of it (`admin.save()`). -/
def replaceFirstAdmin (p : AdminRecord → Bool) (f : AdminRecord → AdminRecord) :
    List AdminRecord → List AdminRecord
  | [] => []
  | a :: rest =>
    if p a then f a :: rest else a :: replaceFirstAdmin p f rest

/-- Method `AdminService.loginAdmin`: `Admin.findOne({email, active: {$ne: false}})`
(the schema's pre-find middleware adds the same `active` filter), 401 when no
match or wrong password, otherwise set `lastLoginAt = now`, save, and return
the admin with a signed token. -/
def loginAdmin (admins : List AdminRecord) (email password : String)
    (now : Nat) : Except AppError (List AdminRecord × AdminRecord × String) :=
  match admins.find? (fun a => a.email == email && a.active) with
  | none => .error ⟨"Incorrect email or password", 401⟩
  | some admin =>
    if correctPassword password admin.passwordDigest then
      let admin' := { admin with lastLoginAt := some now }
      .ok (replaceFirstAdmin (fun a => a.email == email && a.active)
             (fun a => { a with lastLoginAt := some now }) admins,
           admin', signToken admin.aid)
    else .error ⟨"Incorrect email or password", 401⟩

/-- The admin collection after a login attempt (failures change nothing: the
401 is thrown before any save). -/
def loginAdminState (admins : List AdminRecord) (email password : String)
    (now : Nat) : List AdminRecord :=
  match loginAdmin admins email password now with
  | .ok (admins', _, _) => admins'
  | .error _ => admins

/-! ## Serial sequences of settings operations -/

/-- One settings operation, with its external-effect oracles. -/
inductive Op where
  | update (adminId : Nat) (updateData : JSEntries)
  | restore (adminId targetId : Nat)
  | bgImageReplace (adminId : Nat) (file : UploadArg) (destroyOk : Bool)
      (upload : Except AppError ImageUploadResult)
  | bgImageRemove (adminId : Nat) (destroyOk : Bool)
  | aboutImageReplace (adminId : Nat) (file : UploadArg) (destroyOk : Bool)
      (upload : Except AppError ImageUploadResult)
  | aboutImageRemove (adminId : Nat) (destroyOk : Bool)
  | menuMainImageReplace (adminId : Nat) (file : UploadArg) (destroyOk : Bool)
      (upload : Except AppError ImageUploadResult)
  | menuMainImageRemove (adminId : Nat) (destroyOk : Bool)
  | menuItemAdd (adminId : Nat) (itemData : MenuItemInput)
  | menuItemUpdate (adminId itemIndex : Nat) (itemData : MenuItemPatch)
      (destroyOk : Bool)
  | menuItemImageReplace (adminId itemIndex : Nat) (file : UploadArg)
      (destroyOk : Bool) (upload : Except AppError ImageUploadResult)
  | menuItemImageRemove (adminId itemIndex : Nat) (destroyOk : Bool)
  | menuItemDelete (adminId itemIndex : Nat) (destroyOk : Bool)

/-- Run one operation, returning its `Except` outcome. -/
def runOp : Op → Store → Except AppError Store
  | .update adminId updateData, s => updateSiteSettings adminId updateData s
  | .restore adminId targetId, s => restoreSiteSettings adminId targetId s
  | .bgImageReplace adminId file destroyOk upload, s =>
    updateBackgroundImage adminId file destroyOk upload s
  | .bgImageRemove adminId destroyOk, s =>
    removeBackgroundImage adminId destroyOk s
  | .aboutImageReplace adminId file destroyOk upload, s =>
    updateAboutSectionImage adminId file destroyOk upload s
  | .aboutImageRemove adminId destroyOk, s =>
    removeAboutSectionImage adminId destroyOk s
  | .menuMainImageReplace adminId file destroyOk upload, s =>
    updateMenuMainImage adminId file destroyOk upload s
  | .menuMainImageRemove adminId destroyOk, s =>
    removeMenuMainImage adminId destroyOk s
  | .menuItemAdd adminId itemData, s => addMenuChildItem adminId itemData s
  | .menuItemUpdate adminId itemIndex itemData destroyOk, s =>
    updateMenuChildItem adminId itemIndex itemData destroyOk s
  | .menuItemImageReplace adminId itemIndex file destroyOk upload, s =>
    updateMenuChildImage adminId itemIndex file destroyOk upload s
  | .menuItemImageRemove adminId itemIndex destroyOk, s =>
    removeMenuChildImage adminId itemIndex destroyOk s
  | .menuItemDelete adminId itemIndex destroyOk, s =>
    deleteMenuChildItem adminId itemIndex destroyOk s

/-- The collection after one operation; a thrown `AppError` leaves the
collection unchanged (every operation throws before its first write). -/
def applyOp (s : Store) (op : Op) : Store :=
  match runOp op s with
  | .ok s' => s'
  | .error _ => s

/-- The collection after a serial sequence of operations. -/
def applyOps (s : Store) (ops : List Op) : Store := ops.foldl applyOp s

/-! # Theorems -/

/-- For positive `l`, natural `(t + l - 1) / l` is the rational ceiling of
`t / l`. -/
theorem ceil_cast_div_eq (t l : Nat) (hl : 1 ≤ l) :
    ⌈(t : ℚ) / (l : ℚ)⌉₊ = (t + l - 1) / l := by
  have hl0 : (0 : ℚ) < (l : ℚ) := by exact_mod_cast hl
  apply le_antisymm
  · rw [Nat.ceil_le, div_le_iff₀ hl0]
    have h := Nat.lt_div_mul_add (a := t + l - 1) (b := l) (by omega)
    have h2 : t ≤ (t + l - 1) / l * l := by
      generalize (t + l - 1) / l * l = X at h ⊢
      omega
    exact_mod_cast h2
  · rw [Nat.div_le_iff_le_mul_add_pred (by omega : 0 < l)]
    have h1 : (t : ℚ) / l ≤ (⌈(t : ℚ) / l⌉₊ : ℚ) := Nat.le_ceil _
    rw [div_le_iff₀ hl0] at h1
    have h3 : t ≤ ⌈(t : ℚ) / (l : ℚ)⌉₊ * l := by exact_mod_cast h1
    rw [mul_comm] at h3
    generalize l * ⌈(t : ℚ) / (l : ℚ)⌉₊ = X at h3 ⊢
    omega

/-- C2: for all `total ≥ 0`, `limit ≥ 1`, `page ≥ 1`, `getPaginationMeta`
returns exactly `{total, page, limit, totalPages, hasNextPage, hasPrevPage}`
with `totalPages = ceil(total/limit)`, `hasNextPage` true iff
`page < totalPages`, `hasPrevPage` true iff `page > 1`; in particular
`getPaginationMeta(25, 2, 10) = {total: 25, page: 2, limit: 10, totalPages: 3,
hasNextPage: true, hasPrevPage: true}`. -/
theorem getPaginationMeta_spec (total page limit : Nat) (hl : 1 ≤ limit)
    (hp : 1 ≤ page) :
    (getPaginationMeta total page limit).total = total ∧
    (getPaginationMeta total page limit).page = page ∧
    (getPaginationMeta total page limit).limit = limit ∧
    (getPaginationMeta total page limit).totalPages =
      ⌈(total : ℚ) / (limit : ℚ)⌉₊ ∧
    ((getPaginationMeta total page limit).hasNextPage = true ↔
      page < (getPaginationMeta total page limit).totalPages) ∧
    ((getPaginationMeta total page limit).hasPrevPage = true ↔ 1 < page) ∧
    getPaginationMeta 25 2 10 = ⟨25, 2, 10, 3, true, true⟩ := by
  refine ⟨rfl, rfl, rfl, (ceil_cast_div_eq total limit hl).symm, ?_, ?_, rfl⟩
  · simp [getPaginationMeta]
  · simp [getPaginationMeta]

/-- Witness for C2 at `total = 25`, `page = 2`, `limit = 10`. -/
theorem getPaginationMeta_spec_witness :
    (getPaginationMeta 25 2 10).total = 25 ∧
    (getPaginationMeta 25 2 10).page = 2 ∧
    (getPaginationMeta 25 2 10).limit = 10 ∧
    (getPaginationMeta 25 2 10).totalPages = ⌈(25 : ℚ) / (10 : ℚ)⌉₊ ∧
    ((getPaginationMeta 25 2 10).hasNextPage = true ↔
      2 < (getPaginationMeta 25 2 10).totalPages) ∧
    ((getPaginationMeta 25 2 10).hasPrevPage = true ↔ 1 < 2) ∧
    getPaginationMeta 25 2 10 = ⟨25, 2, 10, 3, true, true⟩ :=
  getPaginationMeta_spec 25 2 10 (by decide) (by decide)

/-- C3 counterexample: at `total = 0`, `page = 2`, `limit = 10` the code gives
`totalPages = 0` and `hasNextPage = false` but `hasPrevPage = true`
(`page > 1` is evaluated regardless of `total`), refuting "both hasNextPage
and hasPrevPage are false regardless of page". -/
theorem getPaginationMeta_zero_total_counterexample :
    (getPaginationMeta 0 2 10).totalPages = 0 ∧
    (getPaginationMeta 0 2 10).hasNextPage = false ∧
    (getPaginationMeta 0 2 10).hasPrevPage = true := by
  decide

/-- C3 amended: for every `page ≥ 1` and `limit ≥ 1`,
`getPaginationMeta(0, page, limit)` returns `totalPages = 0` and
`hasNextPage = false` regardless of `page`, while `hasPrevPage` is
`page > 1` (false only when `page = 1`). -/
theorem getPaginationMeta_zero_total_amended (page limit : Nat)
    (hl : 1 ≤ limit) (hp : 1 ≤ page) :
    (getPaginationMeta 0 page limit).totalPages = 0 ∧
    (getPaginationMeta 0 page limit).hasNextPage = false ∧
    ((getPaginationMeta 0 page limit).hasPrevPage = true ↔ 1 < page) := by
  have h0' : (limit - 1) / limit = 0 := Nat.div_eq_of_lt (by omega)
  have h0 : (0 + limit - 1) / limit = 0 := by simpa using h0'
  refine ⟨h0, ?_, ?_⟩
  · simp [getPaginationMeta, h0']
  · simp [getPaginationMeta]

/-- Witness for the amended C3 at `page = 2`, `limit = 10`. -/
theorem getPaginationMeta_zero_total_amended_witness :
    (getPaginationMeta 0 2 10).totalPages = 0 ∧
    (getPaginationMeta 0 2 10).hasNextPage = false ∧
    ((getPaginationMeta 0 2 10).hasPrevPage = true ↔ 1 < 2) :=
  getPaginationMeta_zero_total_amended 2 10 (by decide) (by decide)

/-! ## Single-active-record invariant (C1) -/

/-- The call `deleteImage` always resolves: its `try/catch` swallows every failure. -/
theorem deleteImage_ok (fileId : JSValue) (destroyOk : Bool) :
    deleteImage fileId destroyOk = .ok () := by
  unfold deleteImage
  split <;> rfl

/-- Replacing the first active record by an `isActive`-preserving function
does not change the number of active records. -/
theorem countActive_replaceFirstActive (f : SettingsRecord → SettingsRecord)
    (hf : ∀ r, (f r).isActive = r.isActive) (s : Store) :
    countActive (replaceFirstActive f s) = countActive s := by
  induction s with
  | nil => rfl
  | cons r rest ih =>
    simp only [replaceFirstActive]
    by_cases hr : r.isActive
    · simp [hr, countActive, List.filter_cons, hf r]
    · simp only [hr, if_neg, Bool.false_eq_true, not_false_eq_true,
        countActive, List.filter_cons] at ih ⊢
      simp [hr, ih]

/-- In-place content mutation of the active record preserves the active
count. -/
theorem countActive_mutateActiveFields (s : Store) (a : Nat)
    (g : JSEntries → JSEntries) :
    countActive (mutateActiveFields s a g) = countActive s :=
  countActive_replaceFirstActive
    (fun r => { r with fields := g r.fields, updatedBy := a }) (fun _ => rfl) s

/-- The global `isActive := false` sweep leaves no active record. -/
theorem countActive_deactivated (s : Store) :
    countActive (s.map (fun r => { r with isActive := false })) = 0 := by
  induction s with
  | nil => rfl
  | cons r rest ih => simpa [countActive, List.filter_cons] using ih

/-- Additivity of `countActive` over append. -/
theorem countActive_append (a b : Store) :
    countActive (a ++ b) = countActive a + countActive b := by
  simp [countActive, List.filter_append]

/-- Creating a new active document (with the pre-save dedup sweep) leaves
exactly one active record. -/
theorem countActive_createActive (s : Store) (fs : JSEntries) (a : Nat) :
    countActive (createActive s fs a) = 1 := by
  simp [createActive, countActive_append, countActive_deactivated,
    countActive, List.filter_cons]

/-- Every single settings operation preserves "exactly one active record". -/
theorem countActive_applyOp (s : Store) (op : Op) (h : countActive s = 1) :
    countActive (applyOp s op) = 1 := by
  cases op with
  | update a d =>
    simp only [applyOp, runOp, updateSiteSettings]
    cases hfa : findActive s with
    | some r => simp [hfa, countActive_mutateActiveFields, h]
    | none => simp [hfa, countActive_createActive]
  | restore a t =>
    simp only [applyOp, runOp, restoreSiteSettings]
    cases hft : s.find? (fun r => r.rid == t) with
    | none => simpa [hft] using h
    | some prev =>
      have hc := countActive_createActive s (restoredFields prev) a
      simpa [hft, createActive] using hc
  | bgImageReplace a file dok up =>
    cases file with
    | missing =>
      simpa [applyOp, runOp, updateBackgroundImage, validateImageFile,
        Bind.bind, Except.bind] using h
    | multiple =>
      simpa [applyOp, runOp, updateBackgroundImage, validateImageFile,
        Bind.bind, Except.bind] using h
    | single =>
      simp only [applyOp, runOp, updateBackgroundImage, validateImageFile,
        Bind.bind, Except.bind]
      cases hfa : findActive s with
      | none => simpa [hfa] using h
      | some r =>
        cases up with
        | error e => simpa [hfa, deleteImage_ok, ite_self] using h
        | ok u =>
          simp [hfa, deleteImage_ok, ite_self, Pure.pure, Except.pure,
            countActive_mutateActiveFields, h]
  | bgImageRemove a dok =>
    simp only [applyOp, runOp, removeBackgroundImage, Bind.bind, Except.bind]
    cases hfa : findActive s with
    | none => simpa [hfa] using h
    | some r =>
      simp [hfa, deleteImage_ok, ite_self, Pure.pure, Except.pure,
        countActive_mutateActiveFields, h]
  | aboutImageReplace a file dok up =>
    cases file with
    | missing =>
      simpa [applyOp, runOp, updateAboutSectionImage, validateImageFile,
        Bind.bind, Except.bind] using h
    | multiple =>
      simpa [applyOp, runOp, updateAboutSectionImage, validateImageFile,
        Bind.bind, Except.bind] using h
    | single =>
      simp only [applyOp, runOp, updateAboutSectionImage, validateImageFile,
        Bind.bind, Except.bind]
      cases hfa : findActive s with
      | none => simpa [hfa] using h
      | some r =>
        cases up with
        | error e => simpa [hfa, deleteImage_ok, ite_self] using h
        | ok u =>
          simp [hfa, deleteImage_ok, ite_self, Pure.pure, Except.pure,
            countActive_mutateActiveFields, h]
  | aboutImageRemove a dok =>
    simp only [applyOp, runOp, removeAboutSectionImage, Bind.bind, Except.bind]
    cases hfa : findActive s with
    | none => simpa [hfa] using h
    | some r =>
      simp [hfa, deleteImage_ok, ite_self, Pure.pure, Except.pure,
        countActive_mutateActiveFields, h]
  | menuMainImageReplace a file dok up =>
    cases file with
    | missing =>
      simpa [applyOp, runOp, updateMenuMainImage, validateImageFile,
        Bind.bind, Except.bind] using h
    | multiple =>
      simpa [applyOp, runOp, updateMenuMainImage, validateImageFile,
        Bind.bind, Except.bind] using h
    | single =>
      simp only [applyOp, runOp, updateMenuMainImage, validateImageFile,
        Bind.bind, Except.bind]
      cases hfa : findActive s with
      | none => simpa [hfa] using h
      | some r =>
        cases up with
        | error e => simpa [hfa, deleteImage_ok, ite_self] using h
        | ok u =>
          simp [hfa, deleteImage_ok, ite_self, Pure.pure, Except.pure,
            countActive_mutateActiveFields, h]
  | menuMainImageRemove a dok =>
    simp only [applyOp, runOp, removeMenuMainImage, Bind.bind, Except.bind]
    cases hfa : findActive s with
    | none => simpa [hfa] using h
    | some r =>
      simp [hfa, deleteImage_ok, ite_self, Pure.pure, Except.pure,
        countActive_mutateActiveFields, h]
  | menuItemAdd a item =>
    simp only [applyOp, runOp, addMenuChildItem, Bind.bind, Except.bind]
    cases hfa : findActive s with
    | none => simpa [hfa] using h
    | some r =>
      simp only [hfa]
      cases hm : (if (getKey r.fields "menuChildWithImage").truthy then
          getKey r.fields "menuChildWithImage" else JSValue.arr []) with
      | arr elems =>
        simp [hm, Pure.pure, Except.pure, countActive_mutateActiveFields, h]
      | undefined => simpa [hm] using h
      | null => simpa [hm] using h
      | str v => simpa [hm] using h
      | num v => simpa [hm] using h
      | bool v => simpa [hm] using h
      | obj fs => simpa [hm] using h
  | menuItemUpdate a i patch dok =>
    simp only [applyOp, runOp, updateMenuChildItem, Bind.bind, Except.bind]
    cases hfa : findActive s with
    | none => simpa [hfa] using h
    | some r =>
      simp only [hfa]
      by_cases hg : (!(getKey r.fields "menuChildWithImage").truthy ||
          !(indexGet (getKey r.fields "menuChildWithImage") i).truthy) = true
      · simpa [hg] using h
      · simp [hg, deleteImage_ok, ite_self, Pure.pure, Except.pure,
          countActive_mutateActiveFields, h]
  | menuItemImageReplace a i file dok up =>
    cases file with
    | missing =>
      simpa [applyOp, runOp, updateMenuChildImage, validateImageFile,
        Bind.bind, Except.bind] using h
    | multiple =>
      simpa [applyOp, runOp, updateMenuChildImage, validateImageFile,
        Bind.bind, Except.bind] using h
    | single =>
      simp only [applyOp, runOp, updateMenuChildImage, validateImageFile,
        Bind.bind, Except.bind]
      cases hfa : findActive s with
      | none => simpa [hfa] using h
      | some r =>
        simp only [hfa]
        by_cases hg : (!(getKey r.fields "menuChildWithImage").truthy ||
            !(indexGet (getKey r.fields "menuChildWithImage") i).truthy) = true
        · simpa [hg] using h
        · cases up with
          | error e => simpa [hg, deleteImage_ok, ite_self] using h
          | ok u =>
            simp [hg, deleteImage_ok, ite_self, Pure.pure, Except.pure,
              countActive_mutateActiveFields, h]
  | menuItemImageRemove a i dok =>
    simp only [applyOp, runOp, removeMenuChildImage, Bind.bind, Except.bind]
    cases hfa : findActive s with
    | none => simpa [hfa] using h
    | some r =>
      simp only [hfa]
      by_cases hg : (!(getKey r.fields "menuChildWithImage").truthy ||
          !(indexGet (getKey r.fields "menuChildWithImage") i).truthy) = true
      · simpa [hg] using h
      · simp [hg, deleteImage_ok, ite_self, Pure.pure, Except.pure,
          countActive_mutateActiveFields, h]
  | menuItemDelete a i dok =>
    simp only [applyOp, runOp, deleteMenuChildItem, Bind.bind, Except.bind]
    cases hfa : findActive s with
    | none => simpa [hfa] using h
    | some r =>
      simp only [hfa]
      by_cases hg : (!(getKey r.fields "menuChildWithImage").truthy ||
          !(indexGet (getKey r.fields "menuChildWithImage") i).truthy) = true
      · simpa [hg] using h
      · simp [hg, deleteImage_ok, ite_self, Pure.pure, Except.pure,
          countActive_mutateActiveFields, h]

/-- C1: for every serial sequence of settings operations (updateSiteSettings,
restoreSiteSettings, image replace/remove, menu-item add/update/delete)
starting from a collection with exactly one `isActive = true` record, the
resulting collection again has exactly one record with `isActive = true`. -/
theorem siteSettings_single_active_invariant (s : Store) (ops : List Op)
    (h : countActive s = 1) : countActive (applyOps s ops) = 1 := by
  induction ops generalizing s with
  | nil => simpa [applyOps] using h
  | cons op rest ih =>
    simp only [applyOps, List.foldl_cons]
    exact ih (applyOp s op) (countActive_applyOp s op h)

/-- Witness for C1: a one-record active store taken through an update, a menu
add, a restore, an image removal and an out-of-range menu update. -/
theorem siteSettings_single_active_invariant_witness :
    countActive
      [⟨0, [("heroSectionText", JSValue.obj [("title", JSValue.str "Old")])],
        true, 7⟩] = 1 ∧
    countActive (applyOps
      [⟨0, [("heroSectionText", JSValue.obj [("title", JSValue.str "Old")])],
        true, 7⟩]
      [Op.update 1 [("heroSectionText", JSValue.obj
          [("title", JSValue.str "New")])],
       Op.menuItemAdd 1 ⟨"Dish", "Desc", 10, JSValue.undefined⟩,
       Op.restore 2 0,
       Op.bgImageRemove 2 true,
       Op.menuItemUpdate 2 5
         ⟨JSValue.str "X", JSValue.undefined, JSValue.undefined, JSValue.undefined⟩
         false]) = 1 :=
  ⟨by decide, siteSettings_single_active_invariant _ _ (by decide)⟩

/-! ## Shallow-merge semantics of `updateSiteSettings` (C4, C5, C10) -/

/-- Reading back the key just written. -/
theorem getKey_setEntry_eq (fs : JSEntries) (k : String) (v : JSValue) :
    getKey (setEntry fs k v) k = v := by
  induction fs with
  | nil => simp [setEntry, getKey]
  | cons p rest ih =>
    by_cases hk : p.1 == k
    · simp [setEntry, hk, getKey]
    · simpa [setEntry, hk, getKey, List.find?] using ih

/-- Writing key `k` does not disturb reads of another key. -/
theorem getKey_setEntry_ne (fs : JSEntries) (k k' : String) (v : JSValue)
    (h : ¬k' = k) : getKey (setEntry fs k v) k' = getKey fs k' := by
  have hb : (k == k') = false := by
    simp only [beq_eq_false_iff_ne, ne_eq]
    exact fun hh => h hh.symm
  induction fs with
  | nil => simp [setEntry, getKey, List.find?, hb]
  | cons p rest ih =>
    by_cases hk : p.1 == k
    · have hp : p.1 = k := by simpa using hk
      have hp' : (p.1 == k') = false := by
        simp only [beq_eq_false_iff_ne, ne_eq, hp]
        exact fun hh => h hh.symm
      simp [setEntry, hk, getKey, List.find?, hb, hp']
    · by_cases hk' : p.1 == k'
      · simp [setEntry, hk, getKey, List.find?, hk']
      · simpa [setEntry, hk, getKey, List.find?, hk'] using ih

/-- Processing a payload key other than `k` leaves `k`'s value alone. -/
theorem getKey_applyUpdateKey_ne (fs : JSEntries) (k k' : String)
    (v : JSValue) (h : ¬k' = k) :
    getKey (applyUpdateKey fs k v) k' = getKey fs k' := by
  unfold applyUpdateKey
  by_cases h1 : v.isUndefined = true
  · simp [h1]
  · by_cases h2 : (k == "menuChildWithImage" && v.isArray) = true
    · simp [h1, h2, getKey_setEntry_ne fs k k' v h]
    · by_cases h3 : (v.isObjectType && !v.isNull) = true
      · by_cases h4 :
          ((getKey fs k).isObjectType && !(getKey fs k).isNull) = true
        · simp [h1, h2, h3, h4, getKey_setEntry_ne fs k k' _ h]
        · simp [h1, h2, h3, h4]
      · simp [h1, h2, h3, getKey_setEntry_ne fs k k' v h]

/-- A payload not mentioning `k` leaves `k`'s value alone. -/
theorem getKey_updateFields_notMem (upd : JSEntries) (fs : JSEntries)
    (k : String) (h : ∀ p ∈ upd, ¬p.1 = k) :
    getKey (updateFields fs upd) k = getKey fs k := by
  induction upd generalizing fs with
  | nil => rfl
  | cons p rest ih =>
    have hp : ¬k = p.1 := fun hh => h p (by simp) hh.symm
    calc getKey (updateFields fs (p :: rest)) k
        = getKey (updateFields (applyUpdateKey fs p.1 p.2) rest) k := rfl
      _ = getKey (applyUpdateKey fs p.1 p.2) k :=
          ih _ (fun q hq => h q (by simp [hq]))
      _ = getKey fs k := getKey_applyUpdateKey_ne fs p.1 k p.2 hp

/-- Spread-merge, key absent from the incoming object: the base value is
preserved. -/
theorem getKey_mergeEntries_notMem (upd : JSEntries) (base : JSEntries)
    (k : String) (h : hasKey upd k = false) :
    getKey (mergeEntries base upd) k = getKey base k := by
  induction upd generalizing base with
  | nil => rfl
  | cons p rest ih =>
    have hparts : (p.1 == k) = false ∧ hasKey rest k = false := by
      simpa [hasKey, List.any_cons] using h
    have hp : ¬p.1 = k := by
      simpa [beq_eq_false_iff_ne] using hparts.1
    calc getKey (mergeEntries base (p :: rest)) k
        = getKey (mergeEntries (setEntry base p.1 p.2) rest) k := rfl
      _ = getKey (setEntry base p.1 p.2) k := ih _ hparts.2
      _ = getKey base k := getKey_setEntry_ne _ p.1 k p.2 (fun hh => hp hh.symm)

/-- Spread-merge, key present in the incoming object (unique keys): the
incoming value wins. -/
theorem getKey_mergeEntries_mem (upd : JSEntries) (base : JSEntries)
    (k : String) (hnd : (upd.map Prod.fst).Nodup) (h : hasKey upd k = true) :
    getKey (mergeEntries base upd) k = getKey upd k := by
  induction upd generalizing base with
  | nil => simp [hasKey] at h
  | cons p rest ih =>
    by_cases hk : p.1 = k
    · have hkmem : k ∉ rest.map Prod.fst := by
        simp only [List.map_cons, List.nodup_cons] at hnd
        rw [← hk]
        exact hnd.1
      have hrest : hasKey rest k = false := by
        rw [Bool.eq_false_iff]
        intro ht
        apply hkmem
        simp only [hasKey, List.any_eq_true] at ht
        obtain ⟨q, hq, hqk⟩ := ht
        have hq1 : q.1 = k := by simpa using hqk
        exact hq1 ▸ List.mem_map_of_mem Prod.fst hq
      calc getKey (mergeEntries base (p :: rest)) k
          = getKey (mergeEntries (setEntry base p.1 p.2) rest) k := rfl
        _ = getKey (setEntry base p.1 p.2) k :=
            getKey_mergeEntries_notMem rest _ k hrest
        _ = p.2 := by rw [hk, getKey_setEntry_eq]
        _ = getKey (p :: rest) k := by simp [getKey, List.find?, hk]
    · have hrest : hasKey rest k = true := by
        simp only [hasKey, List.any_cons, Bool.or_eq_true] at h
        rcases h with h1 | h2
        · exact absurd (by simpa using h1) hk
        · exact h2
      have hbk : (p.1 == k) = false := by
        simpa [beq_eq_false_iff_ne] using hk
      calc getKey (mergeEntries base (p :: rest)) k
          = getKey (mergeEntries (setEntry base p.1 p.2) rest) k := rfl
        _ = getKey rest k := by
            have hnd2 : (rest.map Prod.fst).Nodup := by
              simp only [List.map_cons, List.nodup_cons] at hnd
              exact hnd.2
            exact ih _ hnd2 hrest
        _ = getKey (p :: rest) k := by simp [getKey, List.find?, hbk]

/-- The loop `updateFields` processes appended payloads in sequence. -/
theorem updateFields_append (fs l1 l2 : JSEntries) :
    updateFields fs (l1 ++ l2) = updateFields (updateFields fs l1) l2 := by
  simp [updateFields, List.foldl_append]

/-- A payload with unique keys splits around any member, with `k` absent on
both sides. -/
theorem exists_payload_decomp {updateData : JSEntries} {k : String}
    {v : JSValue} (hmem : (k, v) ∈ updateData)
    (hnd : (updateData.map Prod.fst).Nodup) :
    ∃ l1 l2, updateData = l1 ++ (k, v) :: l2 ∧
      (∀ p ∈ l1, ¬p.1 = k) ∧ (∀ p ∈ l2, ¬p.1 = k) := by
  obtain ⟨l1, l2, rfl⟩ := List.append_of_mem hmem
  have hnd' : (l1.map Prod.fst ++ k :: l2.map Prod.fst).Nodup := by
    simpa using hnd
  have hparts := List.nodup_append.mp hnd'
  refine ⟨l1, l2, rfl, ?_, ?_⟩
  · intro p hp hpk
    exact hparts.2.2 (hpk ▸ List.mem_map_of_mem Prod.fst hp) (by simp)
  · intro p hp hpk
    exact (List.nodup_cons.mp hparts.2.1).1
      (hpk ▸ List.mem_map_of_mem Prod.fst hp)

/-- Filtering key `k` out of a decomposed payload removes exactly the `(k,v)`
entry. -/
theorem filter_payload_decomp (l1 l2 : JSEntries) (k : String) (v : JSValue)
    (h1 : ∀ p ∈ l1, ¬p.1 = k) (h2 : ∀ p ∈ l2, ¬p.1 = k) :
    (l1 ++ (k, v) :: l2).filter (fun p => !(p.1 == k)) = l1 ++ l2 := by
  rw [List.filter_append, List.filter_cons]
  have hl1 : l1.filter (fun p => !(p.1 == k)) = l1 :=
    List.filter_eq_self.mpr (fun p hp => by simpa using h1 p hp)
  have hl2 : l2.filter (fun p => !(p.1 == k)) = l2 :=
    List.filter_eq_self.mpr (fun p hp => by simpa using h2 p hp)
  simp [hl1, hl2]

/-- The value at `k` after the whole payload loop is the value after
processing just the `(k, v)` step on the prefix's result. -/
theorem getKey_updateFields_step (l1 l2 : JSEntries) (fs : JSEntries)
    (k : String) (v : JSValue) (h2 : ∀ p ∈ l2, ¬p.1 = k) :
    getKey (updateFields fs (l1 ++ (k, v) :: l2)) k =
      getKey (applyUpdateKey (updateFields fs l1) k v) k := by
  rw [updateFields_append]
  exact getKey_updateFields_notMem l2 _ k h2

/-- The object-merge branch of the key loop: both sides plain objects. -/
theorem getKey_applyUpdateKey_merge (fs : JSEntries) (k : String)
    (cur inc : JSEntries) (hcur : getKey fs k = JSValue.obj cur) :
    getKey (applyUpdateKey fs k (.obj inc)) k =
      .obj (mergeEntries cur inc) := by
  unfold applyUpdateKey
  simp [JSValue.isUndefined, JSValue.isArray, JSValue.isObjectType, JSValue.isNull,
    hcur, entries, getKey_setEntry_eq]

/-- The wholesale branch of the key loop: primitives, `null`, and
`menuChildWithImage` arrays are assigned as given. -/
theorem getKey_applyUpdateKey_wholesale (fs : JSEntries) (k : String)
    (v : JSValue) (hv : v.isUndefined = false)
    (hcase : v.isObjectType = false ∨ v.isNull = true ∨
      (k = "menuChildWithImage" ∧ v.isArray = true)) :
    getKey (applyUpdateKey fs k v) k = v := by
  unfold applyUpdateKey
  rcases hcase with h | h | ⟨hk, ha⟩
  · have hna : v.isArray = false := by
      cases v <;> simp_all [JSValue.isArray, JSValue.isObjectType]
    simp [hv, h, hna, getKey_setEntry_eq]
  · have hn : v = .null := by cases v <;> simp_all [JSValue.isNull]
    subst hn
    simp [JSValue.isUndefined, JSValue.isObjectType, JSValue.isNull,
      getKey_setEntry_eq]
  · subst hk
    simp [hv, ha, getKey_setEntry_eq]

/-- The drop branch of the key loop: a non-null incoming object meeting a
current value that is not a non-null object changes nothing at all. -/
theorem applyUpdateKey_drop (fs : JSEntries) (k : String) (v : JSValue)
    (hv : v.isObjectType = true) (hvn : v.isNull = false)
    (hmenu : ¬(k = "menuChildWithImage" ∧ v.isArray = true))
    (hcur : (getKey fs k).isObjectType = false ∨
      (getKey fs k).isNull = true) :
    applyUpdateKey fs k v = fs := by
  unfold applyUpdateKey
  have hvund : v.isUndefined = false := by
    cases v <;> simp_all [JSValue.isUndefined, JSValue.isObjectType]
  have hb2 : (k == "menuChildWithImage" && v.isArray) = false := by
    rcases Bool.eq_false_or_eq_true (k == "menuChildWithImage") with h | h
    · have hk : k = "menuChildWithImage" := by simpa using h
      rcases Bool.eq_false_or_eq_true v.isArray with ha | ha
      · exact absurd ⟨hk, ha⟩ hmenu
      · simp [ha]
    · simp [h]
  have hcurb : ((getKey fs k).isObjectType && !(getKey fs k).isNull) =
      false := by
    rcases hcur with h | h <;> simp [h]
  simp [hvund, hb2, hv, hvn, hcurb]

/-- Value of `findActive` after an in-place mutation of the active record. -/
theorem findActive_mutateActiveFields (s : Store) (a : Nat)
    (g : JSEntries → JSEntries) (r : SettingsRecord)
    (hfa : findActive s = some r) :
    findActive (mutateActiveFields s a g) =
      some { r with fields := g r.fields, updatedBy := a } := by
  induction s with
  | nil => simp [findActive] at hfa
  | cons r1 rest ih =>
    by_cases hr : r1.isActive
    · have hr1 : r1 = r := by
        simpa [findActive, List.find?_cons, hr] using hfa
      subst hr1
      simp [findActive, mutateActiveFields, replaceFirstActive, hr,
        List.find?_cons]
    · have hfa' : findActive rest = some r := by
        simpa [findActive, List.find?_cons, hr] using hfa
      simpa [findActive, mutateActiveFields, replaceFirstActive, hr,
        List.find?_cons] using ih hfa'

/-- Two in-place mutations that agree on the active record's fields produce
the same store. -/
theorem mutateActiveFields_congr (s : Store) (a : Nat)
    (g g' : JSEntries → JSEntries) (r : SettingsRecord)
    (hfa : findActive s = some r) (hgg : g r.fields = g' r.fields) :
    mutateActiveFields s a g = mutateActiveFields s a g' := by
  induction s with
  | nil => rfl
  | cons r1 rest ih =>
    by_cases hr : r1.isActive
    · have hr1 : r1 = r := by
        simpa [findActive, List.find?_cons, hr] using hfa
      subst hr1
      simp [mutateActiveFields, replaceFirstActive, hr, hgg]
    · have hfa' : findActive rest = some r := by
        simpa [findActive, List.find?_cons, hr] using hfa
      have ih' := ih hfa'
      simpa [mutateActiveFields, replaceFirstActive, hr] using ih'

/-- C4: on an existing active record, a payload field whose incoming and
existing values are both plain objects is shallow key-union merged: incoming
keys overwrite, existing keys absent from the incoming object are
preserved. -/
theorem updateSiteSettings_shallow_merge (adminId : Nat)
    (updateData : JSEntries) (s : Store) (r : SettingsRecord) (k : String)
    (cur inc : JSEntries)
    (hfa : findActive s = some r)
    (hmem : (k, JSValue.obj inc) ∈ updateData)
    (hnd : (updateData.map Prod.fst).Nodup)
    (hinc : (inc.map Prod.fst).Nodup)
    (hcur : getKey r.fields k = JSValue.obj cur) :
    ∃ s' r', updateSiteSettings adminId updateData s = .ok s' ∧
      findActive s' = some r' ∧
      getKey r'.fields k = .obj (mergeEntries cur inc) ∧
      (∀ k2, hasKey inc k2 = true →
        getKey (mergeEntries cur inc) k2 = getKey inc k2) ∧
      (∀ k2, hasKey inc k2 = false →
        getKey (mergeEntries cur inc) k2 = getKey cur k2) := by
  obtain ⟨l1, l2, rfl, h1, h2⟩ := exists_payload_decomp hmem hnd
  refine ⟨mutateActiveFields s adminId
      (fun fs => updateFields fs (l1 ++ (k, JSValue.obj inc) :: l2)),
    { r with
        fields := updateFields r.fields (l1 ++ (k, JSValue.obj inc) :: l2),
        updatedBy := adminId },
    by simp [updateSiteSettings, hfa],
    findActive_mutateActiveFields s adminId _ r hfa, ?_, ?_, ?_⟩
  · rw [getKey_updateFields_step l1 l2 r.fields k _ h2]
    have hfs1 : getKey (updateFields r.fields l1) k = JSValue.obj cur := by
      rw [getKey_updateFields_notMem l1 r.fields k h1]
      exact hcur
    exact getKey_applyUpdateKey_merge _ k cur inc hfs1
  · intro k2 hk2
    exact getKey_mergeEntries_mem inc cur k2 hinc hk2
  · intro k2 hk2
    exact getKey_mergeEntries_notMem inc cur k2 hk2

/-- Witness for C4: updating `heroSectionText` with `{title: "New"}` on an
existing `{title: "Old", subtitle: "S", buttonText: "B"}` merges to
`{title: "New", subtitle: "S", buttonText: "B"}`. -/
theorem updateSiteSettings_shallow_merge_witness :
    mergeEntries
        [("title", JSValue.str "Old"), ("subtitle", JSValue.str "S"),
         ("buttonText", JSValue.str "B")]
        [("title", JSValue.str "New")] =
      [("title", JSValue.str "New"), ("subtitle", JSValue.str "S"),
       ("buttonText", JSValue.str "B")] ∧
    (∃ s' r',
      updateSiteSettings 1
        [("heroSectionText", JSValue.obj [("title", JSValue.str "New")])]
        [⟨0, [("heroSectionText", JSValue.obj
            [("title", JSValue.str "Old"), ("subtitle", JSValue.str "S"),
             ("buttonText", JSValue.str "B")])], true, 0⟩] = .ok s' ∧
      findActive s' = some r' ∧
      getKey r'.fields "heroSectionText" = .obj (mergeEntries
        [("title", JSValue.str "Old"), ("subtitle", JSValue.str "S"),
         ("buttonText", JSValue.str "B")]
        [("title", JSValue.str "New")]) ∧
      (∀ k2, hasKey [("title", JSValue.str "New")] k2 = true →
        getKey (mergeEntries
          [("title", JSValue.str "Old"), ("subtitle", JSValue.str "S"),
           ("buttonText", JSValue.str "B")]
          [("title", JSValue.str "New")]) k2 =
          getKey [("title", JSValue.str "New")] k2) ∧
      (∀ k2, hasKey [("title", JSValue.str "New")] k2 = false →
        getKey (mergeEntries
          [("title", JSValue.str "Old"), ("subtitle", JSValue.str "S"),
           ("buttonText", JSValue.str "B")]
          [("title", JSValue.str "New")]) k2 =
          getKey [("title", JSValue.str "Old"), ("subtitle", JSValue.str "S"),
            ("buttonText", JSValue.str "B")] k2)) :=
  ⟨by decide,
   updateSiteSettings_shallow_merge 1
     [("heroSectionText", JSValue.obj [("title", JSValue.str "New")])]
     [⟨0, [("heroSectionText", JSValue.obj
         [("title", JSValue.str "Old"), ("subtitle", JSValue.str "S"),
          ("buttonText", JSValue.str "B")])], true, 0⟩]
     ⟨0, [("heroSectionText", JSValue.obj
         [("title", JSValue.str "Old"), ("subtitle", JSValue.str "S"),
          ("buttonText", JSValue.str "B")])], true, 0⟩
     "heroSectionText"
     [("title", JSValue.str "Old"), ("subtitle", JSValue.str "S"),
      ("buttonText", JSValue.str "B")]
     [("title", JSValue.str "New")]
     (by decide) (by decide) (by decide) (by decide) (by decide)⟩

/-- C5 counterexample: an array payload value for a field other than
`menuChildWithImage` is NOT written wholesale. Updating `heroSectionText`
(current value `{title: "Old"}`) with the array `["X"]` takes the
`typeof value === 'object'` branch and spread-merges, producing the object
`{title: "Old", "0": "X"}` rather than the array. -/
theorem updateSiteSettings_array_wholesale_counterexample :
    updateSiteSettings 1 [("heroSectionText", JSValue.arr [JSValue.str "X"])]
      [⟨0, [("heroSectionText", JSValue.obj [("title", JSValue.str "Old")])],
        true, 0⟩] =
      .ok [⟨0, [("heroSectionText", JSValue.obj
          [("title", JSValue.str "Old"), ("0", JSValue.str "X")])],
        true, 1⟩] ∧
    JSValue.obj [("title", JSValue.str "Old"), ("0", JSValue.str "X")] ≠
      JSValue.arr [JSValue.str "X"] :=
  ⟨rfl, by decide⟩

/-- C5 amended: a payload field whose value is a primitive (not
object-typed), or `null`, is written wholesale, and an array value is written
wholesale exactly when the field is `menuChildWithImage`; an array under any
other key instead takes the object branch (spread-merge or drop). -/
theorem updateSiteSettings_scalar_wholesale (adminId : Nat)
    (updateData : JSEntries) (s : Store) (r : SettingsRecord) (k : String)
    (v : JSValue)
    (hfa : findActive s = some r)
    (hmem : (k, v) ∈ updateData)
    (hnd : (updateData.map Prod.fst).Nodup)
    (hv : v.isUndefined = false)
    (hcase : v.isObjectType = false ∨ v.isNull = true ∨
      (k = "menuChildWithImage" ∧ v.isArray = true)) :
    ∃ s' r', updateSiteSettings adminId updateData s = .ok s' ∧
      findActive s' = some r' ∧ getKey r'.fields k = v := by
  obtain ⟨l1, l2, rfl, h1, h2⟩ := exists_payload_decomp hmem hnd
  refine ⟨mutateActiveFields s adminId
      (fun fs => updateFields fs (l1 ++ (k, v) :: l2)),
    { r with
        fields := updateFields r.fields (l1 ++ (k, v) :: l2),
        updatedBy := adminId },
    by simp [updateSiteSettings, hfa],
    findActive_mutateActiveFields s adminId _ r hfa, ?_⟩
  rw [getKey_updateFields_step l1 l2 r.fields k v h2]
  exact getKey_applyUpdateKey_wholesale _ k v hv hcase

/-- Witness for the amended C5: a scalar (`backgroundImage := "plain"`) and a
`menuChildWithImage` array, each written wholesale. -/
theorem updateSiteSettings_scalar_wholesale_witness :
    (∃ s' r', updateSiteSettings 1 [("siteTitle", JSValue.str "plain")]
        [⟨0, [("siteTitle", JSValue.str "old")], true, 0⟩] = .ok s' ∧
      findActive s' = some r' ∧
      getKey r'.fields "siteTitle" = JSValue.str "plain") ∧
    (∃ s' r', updateSiteSettings 1
        [("menuChildWithImage", JSValue.arr [JSValue.str "a"])]
        [⟨0, [("siteTitle", JSValue.str "old")], true, 0⟩] = .ok s' ∧
      findActive s' = some r' ∧
      getKey r'.fields "menuChildWithImage" =
        JSValue.arr [JSValue.str "a"]) :=
  ⟨updateSiteSettings_scalar_wholesale 1 [("siteTitle", JSValue.str "plain")]
      [⟨0, [("siteTitle", JSValue.str "old")], true, 0⟩]
      ⟨0, [("siteTitle", JSValue.str "old")], true, 0⟩
      "siteTitle" (JSValue.str "plain")
      (by decide) (by decide) (by decide) (by decide) (by decide),
   updateSiteSettings_scalar_wholesale 1
      [("menuChildWithImage", JSValue.arr [JSValue.str "a"])]
      [⟨0, [("siteTitle", JSValue.str "old")], true, 0⟩]
      ⟨0, [("siteTitle", JSValue.str "old")], true, 0⟩
      "menuChildWithImage" (JSValue.arr [JSValue.str "a"])
      (by decide) (by decide) (by decide) (by decide) (by decide)⟩

/-- C10: on an existing active record, an incoming non-null object value for
a field whose current value is not a non-null object (absent, null, or a
primitive) is silently dropped: the field keeps its prior value, no error is
raised, and the rest of the update applies exactly as if the field were not
in the payload. -/
theorem updateSiteSettings_drops_incoming_object (adminId : Nat)
    (updateData : JSEntries) (s : Store) (r : SettingsRecord) (k : String)
    (v : JSValue)
    (hfa : findActive s = some r)
    (hmem : (k, v) ∈ updateData)
    (hnd : (updateData.map Prod.fst).Nodup)
    (hv : v.isObjectType = true) (hvn : v.isNull = false)
    (hmenu : ¬(k = "menuChildWithImage" ∧ v.isArray = true))
    (hcur : (getKey r.fields k).isObjectType = false ∨
      (getKey r.fields k).isNull = true) :
    updateSiteSettings adminId updateData s =
      updateSiteSettings adminId
        (updateData.filter (fun p => !(p.1 == k))) s ∧
    ∃ s' r', updateSiteSettings adminId updateData s = .ok s' ∧
      findActive s' = some r' ∧ getKey r'.fields k = getKey r.fields k := by
  obtain ⟨l1, l2, rfl, h1, h2⟩ := exists_payload_decomp hmem hnd
  have hcur1 : getKey (updateFields r.fields l1) k = getKey r.fields k :=
    getKey_updateFields_notMem l1 r.fields k h1
  have hdrop : applyUpdateKey (updateFields r.fields l1) k v =
      updateFields r.fields l1 :=
    applyUpdateKey_drop _ k v hv hvn hmenu (by rw [hcur1]; exact hcur)
  have hstep : updateFields r.fields (l1 ++ (k, v) :: l2) =
      updateFields r.fields (l1 ++ l2) := by
    rw [updateFields_append, updateFields_append]
    show updateFields (applyUpdateKey (updateFields r.fields l1) k v) l2 = _
    rw [hdrop]
  constructor
  · rw [filter_payload_decomp l1 l2 k v h1 h2]
    simp only [updateSiteSettings, hfa]
    rw [mutateActiveFields_congr s adminId
      (fun fs => updateFields fs (l1 ++ (k, v) :: l2))
      (fun fs => updateFields fs (l1 ++ l2)) r hfa hstep]
  · refine ⟨mutateActiveFields s adminId
        (fun fs => updateFields fs (l1 ++ (k, v) :: l2)),
      { r with
          fields := updateFields r.fields (l1 ++ (k, v) :: l2),
          updatedBy := adminId },
      by simp [updateSiteSettings, hfa],
      findActive_mutateActiveFields s adminId _ r hfa, ?_⟩
    rw [getKey_updateFields_step l1 l2 r.fields k v h2, hdrop, hcur1]

/-- Witness for C10: incoming `{a: 1}` for `contactInfo` whose current value
is `null` is dropped while the sibling `heroSectionText` update still
applies. -/
theorem updateSiteSettings_drops_incoming_object_witness :
    (updateSiteSettings 1
        [("contactInfo", JSValue.obj [("a", JSValue.num 1)]),
         ("heroSectionText", JSValue.obj [("title", JSValue.str "New")])]
        [⟨0, [("contactInfo", JSValue.null),
              ("heroSectionText", JSValue.obj
                [("title", JSValue.str "Old")])], true, 0⟩] =
      updateSiteSettings 1
        ([("contactInfo", JSValue.obj [("a", JSValue.num 1)]),
          ("heroSectionText", JSValue.obj [("title", JSValue.str "New")])].filter
          (fun p => !(p.1 == "contactInfo")))
        [⟨0, [("contactInfo", JSValue.null),
              ("heroSectionText", JSValue.obj
                [("title", JSValue.str "Old")])], true, 0⟩]) ∧
    ∃ s' r', updateSiteSettings 1
        [("contactInfo", JSValue.obj [("a", JSValue.num 1)]),
         ("heroSectionText", JSValue.obj [("title", JSValue.str "New")])]
        [⟨0, [("contactInfo", JSValue.null),
              ("heroSectionText", JSValue.obj
                [("title", JSValue.str "Old")])], true, 0⟩] = .ok s' ∧
      findActive s' = some r' ∧
      getKey r'.fields "contactInfo" =
        getKey [("contactInfo", JSValue.null),
          ("heroSectionText", JSValue.obj [("title", JSValue.str "Old")])]
          "contactInfo" :=
  updateSiteSettings_drops_incoming_object 1
    [("contactInfo", JSValue.obj [("a", JSValue.num 1)]),
     ("heroSectionText", JSValue.obj [("title", JSValue.str "New")])]
    [⟨0, [("contactInfo", JSValue.null),
          ("heroSectionText", JSValue.obj [("title", JSValue.str "Old")])],
      true, 0⟩]
    ⟨0, [("contactInfo", JSValue.null),
         ("heroSectionText", JSValue.obj [("title", JSValue.str "Old")])],
      true, 0⟩
    "contactInfo" (JSValue.obj [("a", JSValue.num 1)])
    (by decide) (by decide) (by decide) (by decide) (by decide) (by decide)
    (by decide)

/-! ## Restore (C6), image replace (C7), menu index errors (C8) -/

/-- The copy `restoredFields` never carries menu child items. -/
theorem getKey_restoredFields_menu (prev : SettingsRecord) :
    getKey (restoredFields prev) "menuChildWithImage" = .undefined := by
  simp [restoredFields, getKey, List.find?]

/-- C6: `restoreSiteSettings(adminId, targetId)` fails with 404 when no record
has `targetId`; when the target exists it deactivates every existing record
and appends a brand-new active record (`isActive = true`,
`updatedBy = adminId`) copying the target's background image, hero text,
about text, contact info and social links, with `menuChildWithImage` absent
regardless of the target's content. -/
theorem restoreSiteSettings_spec (adminId targetId : Nat) (s : Store) :
    (s.find? (fun r => r.rid == targetId) = none →
      restoreSiteSettings adminId targetId s =
        .error ⟨"Settings version not found", 404⟩) ∧
    (∀ prev, s.find? (fun r => r.rid == targetId) = some prev →
      ∃ newRec, restoreSiteSettings adminId targetId s =
          .ok ((s.map (fun r => { r with isActive := false })) ++ [newRec]) ∧
        newRec.isActive = true ∧
        newRec.updatedBy = adminId ∧
        getKey newRec.fields "backgroundImage" =
          getKey prev.fields "backgroundImage" ∧
        getKey newRec.fields "heroSectionText" =
          getKey prev.fields "heroSectionText" ∧
        getKey newRec.fields "aboutSectionText" =
          getKey prev.fields "aboutSectionText" ∧
        getKey newRec.fields "contactInfo" =
          getKey prev.fields "contactInfo" ∧
        getKey newRec.fields "socialMedia" =
          getKey prev.fields "socialMedia" ∧
        getKey newRec.fields "menuChildWithImage" = .undefined) := by
  constructor
  · intro hnone
    simp [restoreSiteSettings, hnone]
  · intro prev hsome
    refine ⟨⟨freshId s, restoredFields prev, true, adminId⟩, ?_, rfl, rfl,
      ?_, ?_, ?_, ?_, ?_, getKey_restoredFields_menu prev⟩
    · simp [restoreSiteSettings, hsome]
    · simp [restoredFields, getKey, List.find?]
    · simp [restoredFields, getKey, List.find?]
    · simp [restoredFields, getKey, List.find?]
    · simp [restoredFields, getKey, List.find?]
    · simp [restoredFields, getKey, List.find?]

/-- Witness for C6: on a two-record store (record 0 inactive with a non-empty
menu, record 1 active), id 5 gives 404 and restoring id 0 yields a new active
record with the display fields copied and no menu items. -/
theorem restoreSiteSettings_spec_witness :
    (restoreSiteSettings 9 5
        [⟨0, [("heroSectionText", JSValue.obj [("title", JSValue.str "v1")]),
           ("menuChildWithImage", JSValue.arr [JSValue.obj
             [("title", JSValue.str "dish")]])], false, 0⟩,
         ⟨1, [("heroSectionText", JSValue.obj [("title", JSValue.str "v2")])],
           true, 0⟩] =
        .error ⟨"Settings version not found", 404⟩) ∧
    (∃ newRec, restoreSiteSettings 9 0
          [⟨0, [("heroSectionText", JSValue.obj [("title", JSValue.str "v1")]),
             ("menuChildWithImage", JSValue.arr [JSValue.obj
               [("title", JSValue.str "dish")]])], false, 0⟩,
           ⟨1, [("heroSectionText", JSValue.obj
               [("title", JSValue.str "v2")])], true, 0⟩] =
          .ok ((([⟨0, [("heroSectionText", JSValue.obj
                [("title", JSValue.str "v1")]),
              ("menuChildWithImage", JSValue.arr [JSValue.obj
                [("title", JSValue.str "dish")]])], false, 0⟩,
            ⟨1, [("heroSectionText", JSValue.obj
                [("title", JSValue.str "v2")])], true, 0⟩] : Store).map
              (fun r => { r with isActive := false })) ++ [newRec]) ∧
        newRec.isActive = true ∧
        newRec.updatedBy = 9 ∧
        getKey newRec.fields "backgroundImage" =
          getKey [("heroSectionText", JSValue.obj
              [("title", JSValue.str "v1")]),
            ("menuChildWithImage", JSValue.arr [JSValue.obj
              [("title", JSValue.str "dish")]])] "backgroundImage" ∧
        getKey newRec.fields "heroSectionText" =
          getKey [("heroSectionText", JSValue.obj
              [("title", JSValue.str "v1")]),
            ("menuChildWithImage", JSValue.arr [JSValue.obj
              [("title", JSValue.str "dish")]])] "heroSectionText" ∧
        getKey newRec.fields "aboutSectionText" =
          getKey [("heroSectionText", JSValue.obj
              [("title", JSValue.str "v1")]),
            ("menuChildWithImage", JSValue.arr [JSValue.obj
              [("title", JSValue.str "dish")]])] "aboutSectionText" ∧
        getKey newRec.fields "contactInfo" =
          getKey [("heroSectionText", JSValue.obj
              [("title", JSValue.str "v1")]),
            ("menuChildWithImage", JSValue.arr [JSValue.obj
              [("title", JSValue.str "dish")]])] "contactInfo" ∧
        getKey newRec.fields "socialMedia" =
          getKey [("heroSectionText", JSValue.obj
              [("title", JSValue.str "v1")]),
            ("menuChildWithImage", JSValue.arr [JSValue.obj
              [("title", JSValue.str "dish")]])] "socialMedia" ∧
        getKey newRec.fields "menuChildWithImage" = .undefined) :=
  ⟨(restoreSiteSettings_spec 9 5
      [⟨0, [("heroSectionText", JSValue.obj [("title", JSValue.str "v1")]),
         ("menuChildWithImage", JSValue.arr [JSValue.obj
           [("title", JSValue.str "dish")]])], false, 0⟩,
       ⟨1, [("heroSectionText", JSValue.obj [("title", JSValue.str "v2")])],
         true, 0⟩]).1 (by decide),
   (restoreSiteSettings_spec 9 0
      [⟨0, [("heroSectionText", JSValue.obj [("title", JSValue.str "v1")]),
         ("menuChildWithImage", JSValue.arr [JSValue.obj
           [("title", JSValue.str "dish")]])], false, 0⟩,
       ⟨1, [("heroSectionText", JSValue.obj [("title", JSValue.str "v2")])],
         true, 0⟩]).2
     ⟨0, [("heroSectionText", JSValue.obj [("title", JSValue.str "v1")]),
        ("menuChildWithImage", JSValue.arr [JSValue.obj
          [("title", JSValue.str "dish")]])], false, 0⟩ (by decide)⟩

/-- C7: during a background-image replace, an Object Store delete failure for
the previous asset is swallowed (`destroyOk` is universally quantified): the
operation still succeeds and the active record is persisted with the new
`{url, fileId}` from the upload. -/
theorem updateBackgroundImage_delete_failure_nonfatal (adminId : Nat)
    (s : Store) (r : SettingsRecord) (up : ImageUploadResult)
    (destroyOk : Bool) (hfa : findActive s = some r) :
    updateBackgroundImage adminId .single destroyOk (.ok up) s =
      .ok (mutateActiveFields s adminId (fun fs =>
        setEntry fs "backgroundImage" (imageFieldValue up))) ∧
    ∃ r', findActive (mutateActiveFields s adminId (fun fs =>
        setEntry fs "backgroundImage" (imageFieldValue up))) = some r' ∧
      getKey r'.fields "backgroundImage" =
        .obj [("url", .str up.url), ("fileId", .str up.fileId)] := by
  refine ⟨?_, ⟨_, findActive_mutateActiveFields s adminId _ r hfa,
    getKey_setEntry_eq r.fields "backgroundImage" (imageFieldValue up)⟩⟩
  simp [updateBackgroundImage, validateImageFile, hfa, deleteImage_ok,
    ite_self, Bind.bind, Except.bind, Pure.pure, Except.pure]

/-- Witness for C7: the previous asset has a fileId and its Cloudinary delete
fails (`destroyOk = false`); the replace still succeeds and persists the new
image. -/
theorem updateBackgroundImage_delete_failure_nonfatal_witness :
    (updateBackgroundImage 3 .single false (.ok ⟨"new.jpg", "f2"⟩)
        [⟨0, [("backgroundImage", JSValue.obj
            [("url", JSValue.str "old.jpg"),
             ("fileId", JSValue.str "f1")])], true, 0⟩] =
      .ok (mutateActiveFields
        [⟨0, [("backgroundImage", JSValue.obj
            [("url", JSValue.str "old.jpg"),
             ("fileId", JSValue.str "f1")])], true, 0⟩] 3 (fun fs =>
          setEntry fs "backgroundImage" (imageFieldValue ⟨"new.jpg", "f2"⟩)))) ∧
    ∃ r', findActive (mutateActiveFields
        [⟨0, [("backgroundImage", JSValue.obj
            [("url", JSValue.str "old.jpg"),
             ("fileId", JSValue.str "f1")])], true, 0⟩] 3 (fun fs =>
          setEntry fs "backgroundImage"
            (imageFieldValue ⟨"new.jpg", "f2"⟩))) = some r' ∧
      getKey r'.fields "backgroundImage" =
        .obj [("url", .str "new.jpg"), ("fileId", .str "f2")] :=
  updateBackgroundImage_delete_failure_nonfatal 3
    [⟨0, [("backgroundImage", JSValue.obj
        [("url", JSValue.str "old.jpg"), ("fileId", JSValue.str "f1")])],
      true, 0⟩]
    ⟨0, [("backgroundImage", JSValue.obj
        [("url", JSValue.str "old.jpg"), ("fileId", JSValue.str "f1")])],
      true, 0⟩
    ⟨"new.jpg", "f2"⟩ false (by decide)

/-- C8: with an active settings record whose `menuChildWithImage` is an array
of length `n` (or absent), `updateMenuChildItem` and `deleteMenuChildItem`
at an index `≥ n` fail with 404 "Menu item not found" and leave the
collection unchanged. -/
theorem menuChildItem_index_out_of_range (adminId itemIndex : Nat) (s : Store)
    (r : SettingsRecord) (patch : MenuItemPatch) (destroyOk : Bool)
    (hfa : findActive s = some r)
    (hoob : getKey r.fields "menuChildWithImage" = .undefined ∨
      ∃ elems, getKey r.fields "menuChildWithImage" = .arr elems ∧
        elems.length ≤ itemIndex) :
    updateMenuChildItem adminId itemIndex patch destroyOk s =
      .error ⟨"Menu item not found", 404⟩ ∧
    deleteMenuChildItem adminId itemIndex destroyOk s =
      .error ⟨"Menu item not found", 404⟩ ∧
    applyOp s (.menuItemUpdate adminId itemIndex patch destroyOk) = s ∧
    applyOp s (.menuItemDelete adminId itemIndex destroyOk) = s := by
  have hguard : (!(getKey r.fields "menuChildWithImage").truthy ||
      !(indexGet (getKey r.fields "menuChildWithImage") itemIndex).truthy) =
      true := by
    rcases hoob with h | ⟨elems, h, hlen⟩
    · simp [h, JSValue.truthy]
    · have hidx : elems[itemIndex]? = none := List.getElem?_eq_none hlen
      simp [h, indexGet, hidx, JSValue.truthy]
  have h1 : updateMenuChildItem adminId itemIndex patch destroyOk s =
      .error ⟨"Menu item not found", 404⟩ := by
    simp [updateMenuChildItem, hfa, hguard, Bind.bind, Except.bind]
  have h2 : deleteMenuChildItem adminId itemIndex destroyOk s =
      .error ⟨"Menu item not found", 404⟩ := by
    simp [deleteMenuChildItem, hfa, hguard, Bind.bind, Except.bind]
  exact ⟨h1, h2, by simp [applyOp, runOp, h1], by simp [applyOp, runOp, h2]⟩

/-- Witness for C8: `updateMenuChildItem`/`deleteMenuChildItem` with index 5
on an active record holding 2 menu items fail with 404 and change nothing. -/
theorem menuChildItem_index_out_of_range_witness :
    updateMenuChildItem 1 5 ⟨JSValue.str "T", JSValue.undefined, JSValue.undefined,
        JSValue.undefined⟩ true
      [⟨0, [("menuChildWithImage", JSValue.arr
          [JSValue.obj [("title", JSValue.str "a")],
           JSValue.obj [("title", JSValue.str "b")]])], true, 0⟩] =
      .error ⟨"Menu item not found", 404⟩ ∧
    deleteMenuChildItem 1 5 true
      [⟨0, [("menuChildWithImage", JSValue.arr
          [JSValue.obj [("title", JSValue.str "a")],
           JSValue.obj [("title", JSValue.str "b")]])], true, 0⟩] =
      .error ⟨"Menu item not found", 404⟩ ∧
    applyOp [⟨0, [("menuChildWithImage", JSValue.arr
          [JSValue.obj [("title", JSValue.str "a")],
           JSValue.obj [("title", JSValue.str "b")]])], true, 0⟩]
        (.menuItemUpdate 1 5 ⟨JSValue.str "T", JSValue.undefined, JSValue.undefined,
          JSValue.undefined⟩ true) =
      [⟨0, [("menuChildWithImage", JSValue.arr
          [JSValue.obj [("title", JSValue.str "a")],
           JSValue.obj [("title", JSValue.str "b")]])], true, 0⟩] ∧
    applyOp [⟨0, [("menuChildWithImage", JSValue.arr
          [JSValue.obj [("title", JSValue.str "a")],
           JSValue.obj [("title", JSValue.str "b")]])], true, 0⟩]
        (.menuItemDelete 1 5 true) =
      [⟨0, [("menuChildWithImage", JSValue.arr
          [JSValue.obj [("title", JSValue.str "a")],
           JSValue.obj [("title", JSValue.str "b")]])], true, 0⟩] :=
  menuChildItem_index_out_of_range 1 5
    [⟨0, [("menuChildWithImage", JSValue.arr
        [JSValue.obj [("title", JSValue.str "a")],
         JSValue.obj [("title", JSValue.str "b")]])], true, 0⟩]
    ⟨0, [("menuChildWithImage", JSValue.arr
        [JSValue.obj [("title", JSValue.str "a")],
         JSValue.obj [("title", JSValue.str "b")]])], true, 0⟩
    ⟨JSValue.str "T", JSValue.undefined, JSValue.undefined, JSValue.undefined⟩ true
    (by decide)
    (Or.inr ⟨[JSValue.obj [("title", JSValue.str "a")],
      JSValue.obj [("title", JSValue.str "b")]], by decide, by decide⟩)

/-! ## Admin login (C9) -/

/-- Tokens issued by `signToken` are never empty. -/
theorem signToken_ne_empty (id : Nat) : signToken id ≠ "" := by
  intro h
  have hl := congrArg String.length h
  simp [signToken, String.length_append] at hl
  exact absurd hl.1 (by decide)

/-- C9: admin login with correct credentials for an active admin succeeds
with a non-empty token and sets `lastLoginAt`; when every admin with that
email is deactivated (`active = false`), login fails with 401 even for a
correct password and no `lastLoginAt` is written (the collection is
unchanged). -/
theorem loginAdmin_active_flag (admins : List AdminRecord)
    (e p : String) (now : Nat) :
    (∀ a, admins.find? (fun x => x.email == e && x.active) = some a →
      correctPassword p a.passwordDigest = true →
      loginAdmin admins e p now =
        .ok (replaceFirstAdmin (fun x => x.email == e && x.active)
              (fun x => { x with lastLoginAt := some now }) admins,
             { a with lastLoginAt := some now }, signToken a.aid) ∧
      signToken a.aid ≠ "" ∧
      ({ a with lastLoginAt := some now } : AdminRecord).lastLoginAt =
        some now) ∧
    (∀ a, a ∈ admins → a.email = e → a.active = false →
      correctPassword p a.passwordDigest = true →
      (∀ x ∈ admins, x.email = e → x.active = false) →
      loginAdmin admins e p now =
        .error ⟨"Incorrect email or password", 401⟩ ∧
      loginAdminState admins e p now = admins) := by
  constructor
  · intro a hfind hpw
    refine ⟨?_, signToken_ne_empty a.aid, rfl⟩
    simp [loginAdmin, hfind, hpw]
  · intro a _ _ _ _ hall
    have hfind : admins.find? (fun x => x.email == e && x.active) = none := by
      rw [List.find?_eq_none]
      intro x hx
      by_cases hxe : x.email = e
      · simp [hall x hx hxe]
      · simp [hxe]
    have herr : loginAdmin admins e p now =
        .error ⟨"Incorrect email or password", 401⟩ := by
      simp [loginAdmin, hfind]
    exact ⟨herr, by simp [loginAdminState, herr]⟩

/-- Witness for C9: one active and one deactivated admin; the active one logs
in successfully with `lastLoginAt` set, the deactivated one gets 401 with the
collection unchanged. -/
theorem loginAdmin_active_flag_witness :
    (loginAdmin [⟨1, "A", "a@x.com", bcryptHash "pw", true, none⟩]
        "a@x.com" "pw" 99 =
      .ok (replaceFirstAdmin (fun x => x.email == "a@x.com" && x.active)
            (fun x => { x with lastLoginAt := some 99 })
            [⟨1, "A", "a@x.com", bcryptHash "pw", true, none⟩],
           { (⟨1, "A", "a@x.com", bcryptHash "pw", true, none⟩ :
              AdminRecord) with lastLoginAt := some 99 },
           signToken 1) ∧
      signToken 1 ≠ "" ∧
      ({ (⟨1, "A", "a@x.com", bcryptHash "pw", true, none⟩ :
          AdminRecord) with lastLoginAt := some 99 }).lastLoginAt =
        some 99) ∧
    (loginAdmin [⟨2, "B", "b@x.com", bcryptHash "pw", false, none⟩]
        "b@x.com" "pw" 99 =
      .error ⟨"Incorrect email or password", 401⟩ ∧
    loginAdminState [⟨2, "B", "b@x.com", bcryptHash "pw", false, none⟩]
        "b@x.com" "pw" 99 =
      [⟨2, "B", "b@x.com", bcryptHash "pw", false, none⟩]) :=
  ⟨(loginAdmin_active_flag
      [⟨1, "A", "a@x.com", bcryptHash "pw", true, none⟩]
      "a@x.com" "pw" 99).1
      ⟨1, "A", "a@x.com", bcryptHash "pw", true, none⟩
      (by decide) (by decide),
   (loginAdmin_active_flag
      [⟨2, "B", "b@x.com", bcryptHash "pw", false, none⟩]
      "b@x.com" "pw" 99).2
      ⟨2, "B", "b@x.com", bcryptHash "pw", false, none⟩
      (by decide) (by decide) (by decide) (by decide)
      (by decide)⟩

end Caterine
